import Mathlib

/-!
Verification of the chunked voxel-world core of mkcraft (`src/world.rs`,
`src/utils.rs`) against its natural-language specification.

The code is shallowly embedded: Rust arrays become index functions, panics
become `Option.none`, and the shared mutable `World` becomes explicit state
passing.  The simdnoise heightfield and the coordinate-seeded RNG live in an
external crate; the spec treats them as a replaceable, deterministic
"height-field function" collaborator, so they are abstracted into a
`NoiseModel` parameter threaded through every generation step.
-/

namespace Mkcraft

/-- `CHUNK_SIZE_X: i32 = 32`, the cubic chunk edge length. -/
def CHUNK_SIZE_X : Int := 32

/-- `CHUNK_SIZE = CHUNK_SIZE_X^3 = 32768` blocks per chunk. -/
def CHUNK_SIZE : Int := CHUNK_SIZE_X * CHUNK_SIZE_X * CHUNK_SIZE_X

/-- `CHUNK_SIZE_X as usize`, the edge length used for local (usize) indexing
(local name `usize_c` in `ChunkData::set_block`/`get_block`). -/
def usize_c : Nat := 32

/-- `CHUNK_SIZE as usize`, the flattened block-array length. -/
def chunk_size_usize : Nat := usize_c * usize_c * usize_c

/-- Modelled from the spec: the terrain-shape collaborator.  The source
computes four simdnoise f32 fields and blends them into a per-column target
height (`ChunkNoises::new` plus lines 194-202 of `ChunkData::new`), and hashes
the chunk coordinate into an RNG seed; the spec treats this as a replaceable
"height-field function", deterministic in the chunk coordinate.
`targetHeight cx cz lx lz` is the blended target height of local column
`(lx, lz)` of the chunk column `(cx, cz)`; `seedOf` is the coordinate hash. -/
structure NoiseModel where
  targetHeight : Int → Int → Nat → Nat → Int
  seedOf : Int → Int → Int → Nat

/-- Modelled from the spec: the per-chunk cached `HeightField` — 2D noise
samples reduced to a per-column target height, plus the RNG seed derived
deterministically from the chunk coordinate (`ChunkNoises` in the source,
whose f32 vectors and `StdRng` come from external crates). -/
structure ChunkNoises where
  targetHeight : Nat → Nat → Int
  rngSeed : Nat

/-- `ChunkNoises::new(x, y, z)`: sample the noise fields at the chunk's world
offset and seed the RNG from the hashed coordinate — everything is a function
of the coordinate alone. -/
def ChunkNoises.new (nm : NoiseModel) (x y z : Int) : ChunkNoises :=
  { targetHeight := nm.targetHeight x z
    rngSeed := nm.seedOf x y z }

/-- `ChunkData`: the flattened `[u8; 32768]` block-id array (indexed
`x + y*32 + z*32*32`) and the `[Option<i32>; 1024]` per-column height map
(indexed `x + z*32`), both as index functions.  Indices beyond the array
length are never read by the bound-checked accessors. -/
structure ChunkData where
  block_ids : Nat → Nat
  height_map : Nat → Option Int

/-- The block id the generation loop of `ChunkData::new` assigns to local
voxel `(x, y, z)` (lines 187-227): a cascade of comparisons of the global y
against the column's target / dirt / grass heights and sea level 0. -/
def ChunkData.gen_block_id (noises : ChunkNoises) (basis_y : Int)
    (x y z : Nat) : Nat :=
  let global_y : Int := basis_y * CHUNK_SIZE_X + (y : Int)
  let target_height := noises.targetHeight x z
  let dirt_height := target_height + 2
  let grass_height := dirt_height + 1
  let b0 : Nat := 0
  let b1 := if global_y ≤ 0 then 4 else b0
  let b2 := if global_y = grass_height then
      (if 0 ≤ global_y then 3 else 2) else b1
  let b3 := if global_y ≤ dirt_height then 2 else b2
  if global_y ≤ target_height then 1 else b3

/-- The height-map entry the generation loop records for local column
`(x, z)`: the local y of the grass surface, only when that surface is at
global y > 0 and falls inside this chunk (lines 211-217). -/
def ChunkData.gen_height (noises : ChunkNoises) (basis_y : Int)
    (x z : Nat) : Option Int :=
  let grass_height := noises.targetHeight x z + 3
  let local_y := grass_height - basis_y * CHUNK_SIZE_X
  if 0 ≤ local_y ∧ local_y < CHUNK_SIZE_X ∧ 0 < grass_height then
    some local_y
  else none

/-- `ChunkData::new(basis, noises)`: materialize the full block array and
height map from the cached noises.  Each flattened index
`i = x + y*32 + z*32*32` is written exactly once by the triple loop, so the
array is the index function below (`basis_x`/`basis_z` are computed but only
`global_y` feeds the block cascade, exactly as in the source). -/
def ChunkData.new (basis_x basis_y basis_z : Int) (noises : ChunkNoises) :
    ChunkData :=
  { block_ids := fun i =>
      if i < chunk_size_usize then
        ChunkData.gen_block_id noises basis_y
          (i % usize_c) (i / usize_c % usize_c) (i / (usize_c * usize_c))
      else 0
    height_map := fun c =>
      if c < usize_c * usize_c then
        ChunkData.gen_height noises basis_y (c % usize_c) (c / usize_c)
      else none }

/-- `ChunkData::set_block`: write through the flattened index, silently
dropping the write when the flattened index is out of range. -/
def ChunkData.set_block (d : ChunkData) (x y z : Nat) (block_id : Nat) :
    ChunkData :=
  let index := x + y * usize_c + z * usize_c * usize_c
  if index < chunk_size_usize then
    { d with block_ids := fun i => if i = index then block_id else d.block_ids i }
  else d

/-- `ChunkData::get_block`: read through the flattened index, returning 0
(air) when the flattened index is out of range. -/
def ChunkData.get_block (d : ChunkData) (x y z : Nat) : Nat :=
  let index := x + y * usize_c + z * usize_c * usize_c
  if index < chunk_size_usize then d.block_ids index else 0

/-- `ChunkState`: a chunk's lazily generated state — optional noises,
optional block data, and its chunk coordinate. -/
structure ChunkState where
  data : Option ChunkData
  noises : Option ChunkNoises
  x : Int
  y : Int
  z : Int

/-- `ChunkState::new`: fresh, ungenerated chunk. -/
def ChunkState.new (x y z : Int) : ChunkState :=
  { data := none, noises := none, x := x, y := y, z := z }

/-- `ChunkState::ensure_noised`: compute the noises on first demand. -/
def ChunkState.ensure_noised (cs : ChunkState) (nm : NoiseModel) : ChunkState :=
  if cs.noises.isNone then
    { cs with noises := some (ChunkNoises.new nm cs.x cs.y cs.z) }
  else cs

/-- `ChunkState::ensure_formed`: materialize the block data on first demand,
ensuring the noises first.  The `none` branch of the match mirrors the
`.expect("Noises must be initialized")` panic and is unreachable
(`ensure_noised` always leaves the noises present). -/
def ChunkState.ensure_formed (cs : ChunkState) (nm : NoiseModel) : ChunkState :=
  if cs.data.isNone then
    let cs' := cs.ensure_noised nm
    match cs'.noises with
    | some noises =>
        { cs' with data := some (ChunkData.new cs'.x cs'.y cs'.z noises) }
    | none => cs'
  else cs

/-- `ChunkState::is_formed`. -/
def ChunkState.is_formed (cs : ChunkState) : Bool :=
  cs.data.isSome

/-- `ChunkState::set_block`: auto-ensure formation, then write; the `none`
branch mirrors the (unreachable) panic. -/
def ChunkState.set_block (cs : ChunkState) (nm : NoiseModel)
    (x y z : Nat) (block_id : Nat) : ChunkState :=
  let cs' := cs.ensure_formed nm
  match cs'.data with
  | some d => { cs' with data := some (d.set_block x y z block_id) }
  | none => cs'

/-- `ChunkState::get_block`: read the block data; `none` models the panic
taken when the chunk is not yet formed. -/
def ChunkState.get_block (cs : ChunkState) (x y z : Nat) : Option Nat :=
  cs.data.map (fun d => d.get_block x y z)

/-- The `i32 -> usize` cast of `arr_index as usize` in
`Neighborhood::get_chunk`: sign-extension then reinterpretation, i.e. the
value modulo 2^64 (exact for every i32 value). -/
def usizeCast (n : Int) : Nat :=
  (n.emod (2 ^ 64)).toNat

/-- `Neighborhood`: the write-locked guards over a cube of chunks, the cube's
edge length in chunks, and the negated center chunk coordinate (`offset`).
The guards' `Vec` is a list of the guarded chunk states. -/
structure Neighborhood where
  data : List ChunkState
  size : Nat
  offset : Int × Int × Int

/-- The flattened guard-array index `Neighborhood::get_chunk` computes for a
world coordinate (lines 112-120): relative chunk delta plus `size/2`, flattened
row-major, then cast `as usize`. -/
def Neighborhood.arr_index (n : Neighborhood) (x y z : Int) : Nat :=
  let ox := n.offset.1
  let oy := n.offset.2.1
  let oz := n.offset.2.2
  let dx := x.ediv CHUNK_SIZE_X + ox
  let dy := y.ediv CHUNK_SIZE_X + oy
  let dz := z.ediv CHUNK_SIZE_X + oz
  let size : Int := (n.size : Int)
  let offset : Int := ((n.size / 2 : Nat) : Int)
  usizeCast ((dx + offset) * size * size + (dy + offset) * size + (dz + offset))

/-- `Neighborhood::get_chunk`: return the guard at the flattened index, or
panic (`none`) when that index is outside the guard array. -/
def Neighborhood.get_chunk (n : Neighborhood) (x y z : Int) :
    Option ChunkState :=
  let arr_index := n.arr_index x y z
  if h : arr_index < n.data.length then some (n.data.get ⟨arr_index, h⟩)
  else none

/-- `Neighborhood::set_block`: write through `get_chunk` at the Euclidean
local coordinates; `none` models the panic propagated from `get_chunk`. -/
def Neighborhood.set_block (n : Neighborhood) (nm : NoiseModel)
    (x y z : Int) (block_id : Nat) : Option Neighborhood :=
  let arr_index := n.arr_index x y z
  if h : arr_index < n.data.length then
    some { n with data := (n.data.set arr_index
      ((n.data.get ⟨arr_index, h⟩).set_block nm
        (x.emod CHUNK_SIZE_X).toNat
        (y.emod CHUNK_SIZE_X).toNat
        (z.emod CHUNK_SIZE_X).toNat block_id)) }
  else none

/-- `Neighborhood::get_block`: read through `get_chunk` at the Euclidean local
coordinates; the outer `none` models the panic propagated from `get_chunk`,
the inner option is `ChunkState::get_block`'s unformed-chunk panic. -/
def Neighborhood.get_block (n : Neighborhood) (x y z : Int) :
    Option (Option Nat) :=
  (n.get_chunk x y z).map (fun cs =>
    cs.get_block
      (x.emod CHUNK_SIZE_X).toNat
      (y.emod CHUNK_SIZE_X).toNat
      (z.emod CHUNK_SIZE_X).toNat)

/-- Modelled from the spec: `Neighborhood` construction (the accessors live in
`src/world.rs` but no constructor does).  A neighborhood is built around a
center chunk coordinate with a fixed odd cube edge `2r+1`, holding write
guards over every chunk with relative delta in `[-r, r]^3`, laid out
row-major (x outer, z inner), with `offset` the negated center so relative
deltas come out centered. -/
def Neighborhood.around (cx cy cz : Int) (r : Nat) : Neighborhood :=
  let s := 2 * r + 1
  { data := (List.range (s * s * s)).map (fun i =>
      ChunkState.new
        (cx - (r : Int) + (i / (s * s) : Nat))
        (cy - (r : Int) + ((i / s % s : Nat) : Int))
        (cz - (r : Int) + ((i % s : Nat) : Int)))
    size := s
    offset := (-cx, -cy, -cz) }

/-- A registered chunk-update listener channel; `closed` records whether the
receiving end was dropped (a closed channel makes `send` fail). -/
structure Listener where
  closed : Bool

/-- `ChunkUpdateMessage`: the chunk coordinate broadcast to listeners (the
source also carries the `Arc<World>` handle, which the embedding elides). -/
structure ChunkUpdateMessage where
  x : Int
  y : Int
  z : Int

/-- `World`: the chunk map (a total function standing for the
`HashMap<(i32,i32,i32), Arc<RwLock<ChunkState>>>`) and the registered
listener channels. -/
structure World where
  chunks : Int × Int × Int → Option ChunkState
  chunk_update_listeners : List Listener

/-- `World::new`: empty chunk map, no listeners (the block-color table the
source also builds is render-only and unused by the storage core). -/
def World.new : World :=
  { chunks := fun _ => none, chunk_update_listeners := [] }

/-- `World::ensure_chunk`: return the existing chunk state, or insert and
return a fresh `ChunkState::new` under the map's write lock. -/
def World.ensure_chunk (w : World) (x y z : Int) : ChunkState × World :=
  match w.chunks (x, y, z) with
  | some cs => (cs, w)
  | none =>
      let new_chunk := ChunkState.new x y z
      (new_chunk,
        { w with chunks := fun c =>
            if c = (x, y, z) then some new_chunk else w.chunks c })

/-- `World::get_chunk`: `ensure_chunk`, then `ensure_formed` on the shared
state (the `Arc` aliasing means the map's entry is the formed state). -/
def World.get_chunk (w : World) (nm : NoiseModel) (x y z : Int) :
    ChunkState × World :=
  let r := w.ensure_chunk x y z
  let formed := r.1.ensure_formed nm
  (formed,
    { r.2 with chunks := fun c =>
        if c = (x, y, z) then some formed else r.2.chunks c })

/-- `World::get_block`: route the world coordinate to its chunk (Euclidean
division), form the chunk, read the Euclidean local coordinate.  The returned
`World` is the state after the lazy formation. -/
def World.get_block (w : World) (nm : NoiseModel) (x y z : Int) :
    Option Nat × World :=
  let chunk_x := x.ediv CHUNK_SIZE_X
  let chunk_y := y.ediv CHUNK_SIZE_X
  let chunk_z := z.ediv CHUNK_SIZE_X
  let r := w.get_chunk nm chunk_x chunk_y chunk_z
  (r.1.get_block
      (x.emod CHUNK_SIZE_X).toNat
      (y.emod CHUNK_SIZE_X).toNat
      (z.emod CHUNK_SIZE_X).toNat,
    r.2)

/-- `World::set_block`: route to the chunk, write the block, then send one
`ChunkUpdateMessage` with that single chunk coordinate to every registered
listener, ignoring send failures (`let _ = listener.send(..)`).  The returned
list records each attempted send and whether it was delivered
(`false` when the listener channel is closed). -/
def World.set_block (w : World) (nm : NoiseModel) (x y z : Int)
    (block_id : Nat) : World × List (ChunkUpdateMessage × Bool) :=
  let chunk_x := x.ediv CHUNK_SIZE_X
  let chunk_y := y.ediv CHUNK_SIZE_X
  let chunk_z := z.ediv CHUNK_SIZE_X
  let r := w.get_chunk nm chunk_x chunk_y chunk_z
  let written := r.1.set_block nm
      (x.emod CHUNK_SIZE_X).toNat
      (y.emod CHUNK_SIZE_X).toNat
      (z.emod CHUNK_SIZE_X).toNat block_id
  let w' := { r.2 with chunks := fun c =>
      if c = (chunk_x, chunk_y, chunk_z) then some written else r.2.chunks c }
  (w', w.chunk_update_listeners.map (fun l =>
      (⟨chunk_x, chunk_y, chunk_z⟩, !l.closed)))

/-- `World::register_chunk_update_listener`: append a fresh (open) sender and
hand back the receiving endpoint (here: the updated world). -/
def World.register_chunk_update_listener (w : World) : World :=
  { w with chunk_update_listeners :=
      w.chunk_update_listeners ++ [{ closed := false }] }

/-- The inclusive integer range `a..=b` as a list (`for v in a..=b`). -/
def intRange (a b : Int) : List Int :=
  (List.range (b - a + 1).toNat).map (fun (n : Nat) => a + (n : Int))

/-- The covering chunk coordinates visited by the triple
`for chunk_x in chunk_start_x..=chunk_end_x { .. }` loops of
`WorldView::from_range` (x outer, z inner). -/
def coveringChunks (x1 x2 y1 y2 z1 z2 : Int) : List (Int × Int × Int) :=
  (intRange x1 x2).flatMap (fun cx =>
    (intRange y1 y2).flatMap (fun cy =>
      (intRange z1 z2).map (fun cz => (cx, cy, cz))))

/-- The chunk-staging loop of `WorldView::from_range`: call `World::get_chunk`
on every covering chunk coordinate in order, threading the world. -/
def World.ensure_range (w : World) (nm : NoiseModel)
    (cs : List (Int × Int × Int)) : World :=
  cs.foldl (fun w c => (w.get_chunk nm c.1 c.2.1 c.2.2).2) w

/-- `WorldView`: origin, size, and the dense byte array (an index function;
indices at or beyond `size_x*size_y*size_z` are never read by the
bound-checked `get_block`). -/
structure WorldView where
  data : Nat → Nat
  origin : Int × Int × Int
  size : Int × Int × Int

/-- `WorldView::from_range`: stage (create + form) every chunk intersecting
the box, then copy each in-box voxel from its chunk's read guard into the
dense array (the copy loop writes flattened index
`view_x + view_y*size_x + view_z*size_x*size_y` exactly once per in-box
coordinate; entries the `chunk_map` lookup misses keep the preallocated 0).
The guards read in the copy phase hold exactly the staged world's chunk
states, so the embedding reads them from the staged world's map. -/
def WorldView.from_range (w : World) (nm : NoiseModel)
    (start_x end_x start_y end_y start_z end_z : Int) : WorldView × World :=
  let size_x := end_x - start_x + 1
  let size_y := end_y - start_y + 1
  let size_z := end_z - start_z + 1
  let chunk_start_x := start_x.ediv CHUNK_SIZE_X
  let chunk_end_x := end_x.ediv CHUNK_SIZE_X
  let chunk_start_y := start_y.ediv CHUNK_SIZE_X
  let chunk_end_y := end_y.ediv CHUNK_SIZE_X
  let chunk_start_z := start_z.ediv CHUNK_SIZE_X
  let chunk_end_z := end_z.ediv CHUNK_SIZE_X
  let w' := w.ensure_range nm (coveringChunks chunk_start_x chunk_end_x
      chunk_start_y chunk_end_y chunk_start_z chunk_end_z)
  let data := fun (i : Nat) =>
    let ii : Int := (i : Int)
    if ii < size_x * size_y * size_z then
      let view_x := ii.emod size_x
      let view_y := (ii.ediv size_x).emod size_y
      let view_z := ii.ediv (size_x * size_y)
      let x := start_x + view_x
      let y := start_y + view_y
      let z := start_z + view_z
      let chunk_x := x.ediv CHUNK_SIZE_X
      let chunk_y := y.ediv CHUNK_SIZE_X
      let chunk_z := z.ediv CHUNK_SIZE_X
      match w'.chunks (chunk_x, chunk_y, chunk_z) with
      | some cs =>
          (cs.get_block
            (x.emod CHUNK_SIZE_X).toNat
            (y.emod CHUNK_SIZE_X).toNat
            (z.emod CHUNK_SIZE_X).toNat).getD 0
      | none => 0
    else 0
  (⟨data, (start_x, start_y, start_z), (size_x, size_y, size_z)⟩, w')

/-- `WorldView::get_block`: bound-check against origin/size, returning 0
(air) outside, else read the flattened index. -/
def WorldView.get_block (v : WorldView) (x y z : Int) : Nat :=
  let origin_x := v.origin.1
  let origin_y := v.origin.2.1
  let origin_z := v.origin.2.2
  let size_x := v.size.1
  let size_y := v.size.2.1
  let size_z := v.size.2.2
  if x < origin_x ∨ x ≥ origin_x + size_x
      ∨ y < origin_y ∨ y ≥ origin_y + size_y
      ∨ z < origin_z ∨ z ≥ origin_z + size_z then
    0
  else
    let local_x := x - origin_x
    let local_y := y - origin_y
    let local_z := z - origin_z
    v.data (local_x + local_y * size_x + local_z * size_x * size_y).toNat

/-- `WorldView::contains`. -/
def WorldView.contains (v : WorldView) (x y z : Int) : Bool :=
  let origin_x := v.origin.1
  let origin_y := v.origin.2.1
  let origin_z := v.origin.2.2
  let size_x := v.size.1
  let size_y := v.size.2.1
  let size_z := v.size.2.2
  x ≥ origin_x && x < origin_x + size_x
    && y ≥ origin_y && y < origin_y + size_y
    && z ≥ origin_z && z < origin_z + size_z

/-- `tokio::task::JoinHandle`, modelled as a computation that finishes at a
fixed instant with a fixed value; `is_finished` compares against the current
instant passed to each poll. -/
structure JoinHandle (T : Type) where
  finishTime : Nat
  val : T

/-- `JoinHandle::is_finished` at instant `now`. -/
def JoinHandle.is_finished {T : Type} (h : JoinHandle T) (now : Nat) : Bool :=
  h.finishTime ≤ now

/-- `QueuedItem<T>` (the spec's `DeferredValue`): an in-flight background
computation or a completed value. -/
inductive QueuedItem (T : Type) where
  | Generating : JoinHandle T → QueuedItem T
  | Ready : T → QueuedItem T

/-- `QueuedItem::get` polled at instant `now`: a finished pending handle is
joined and the container transitions to `Ready`; an unfinished one returns
"not ready" leaving the state untouched; a ready value is returned as is.
Returns (polled value, container state after the poll). -/
def QueuedItem.get {T : Type} (q : QueuedItem T) (now : Nat) :
    Option T × QueuedItem T :=
  match q with
  | .Generating handle =>
      if handle.is_finished now then
        let element := handle.val
        (some element, .Ready element)
      else (none, .Generating handle)
  | .Ready item => (some item, .Ready item)

/-- The empty chunk data (only used as the impossible `Option.getD`
default). -/
def defaultChunkData : ChunkData :=
  ⟨fun _ => 0, fun _ => none⟩

/-- The chunk state the world associates with chunk coordinate `c`: the map's
entry, or the fresh state `ensure_chunk` would insert. -/
def World.stateAt (w : World) (c : Int × Int × Int) : ChunkState :=
  (w.chunks c).getD (ChunkState.new c.1 c.2.1 c.2.2)

/-- The value a `World::get_block` call observes at a world coordinate,
expressed without threading the world: form the routed chunk's data (a no-op
when already formed) and read the Euclidean local coordinate. -/
def World.peek (w : World) (nm : NoiseModel) (x y z : Int) : Nat :=
  let c := (x.ediv CHUNK_SIZE_X, y.ediv CHUNK_SIZE_X, z.ediv CHUNK_SIZE_X)
  ((((w.stateAt c).ensure_formed nm).data).getD defaultChunkData).get_block
    (x.emod CHUNK_SIZE_X).toNat
    (y.emod CHUNK_SIZE_X).toNat
    (z.emod CHUNK_SIZE_X).toNat

/-- A concrete noise model (flat terrain at height 0) used to instantiate the
universally quantified theorems on concrete inputs. -/
def exampleNoise : NoiseModel :=
  ⟨fun _ _ _ _ => 0, fun _ _ _ => 0⟩

/-- A concrete formed chunk state. -/
def exampleState : ChunkState :=
  (ChunkState.new 0 0 0).ensure_formed exampleNoise

/-- A concrete chunk data filled with block id 9. -/
def exampleChunkData : ChunkData :=
  ⟨fun _ => 9, fun _ => none⟩

/-! ### Chunk state machine lemmas -/

theorem ediv_eq_div (a b : Int) : a.ediv b = a / b := rfl

theorem emod_eq_mod (a b : Int) : a.emod b = a % b := rfl

theorem ChunkState.ensure_noised_noises_isSome (cs : ChunkState)
    (nm : NoiseModel) : (cs.ensure_noised nm).noises.isSome := by
  cases h : cs.noises <;> simp [ChunkState.ensure_noised, h]

theorem ChunkState.ensure_noised_of_isSome (cs : ChunkState) (nm : NoiseModel)
    (h : cs.noises.isSome) : cs.ensure_noised nm = cs := by
  cases hn : cs.noises <;> simp [ChunkState.ensure_noised, hn]
  · rw [hn] at h; simp at h

theorem ChunkState.ensure_noised_data (cs : ChunkState) (nm : NoiseModel) :
    (cs.ensure_noised nm).data = cs.data := by
  cases h : cs.noises <;> simp [ChunkState.ensure_noised, h]

theorem ChunkState.ensure_formed_of_isSome (cs : ChunkState) (nm : NoiseModel)
    (h : cs.data.isSome) : cs.ensure_formed nm = cs := by
  cases hd : cs.data <;> simp [ChunkState.ensure_formed, hd]
  · rw [hd] at h; simp at h

theorem ChunkState.ensure_formed_data_isSome (cs : ChunkState)
    (nm : NoiseModel) : (cs.ensure_formed nm).data.isSome := by
  cases hd : cs.data with
  | some d => simp [ChunkState.ensure_formed, hd]
  | none =>
      cases hn : cs.noises with
      | some ns =>
          simp [ChunkState.ensure_formed, ChunkState.ensure_noised, hd, hn]
      | none =>
          simp [ChunkState.ensure_formed, ChunkState.ensure_noised, hd, hn]

theorem ChunkState.ensure_formed_idem (cs : ChunkState) (nm : NoiseModel) :
    (cs.ensure_formed nm).ensure_formed nm = cs.ensure_formed nm :=
  ChunkState.ensure_formed_of_isSome _ nm
    (ChunkState.ensure_formed_data_isSome cs nm)

theorem ChunkState.ensure_noised_idem (cs : ChunkState) (nm : NoiseModel) :
    (cs.ensure_noised nm).ensure_noised nm = cs.ensure_noised nm :=
  ChunkState.ensure_noised_of_isSome _ nm
    (ChunkState.ensure_noised_noises_isSome cs nm)

theorem ChunkState.ensure_formed_noises (cs : ChunkState) (nm : NoiseModel)
    (h : cs.data.isSome → cs.noises.isSome) :
    (cs.ensure_formed nm).noises.isSome := by
  cases hd : cs.data with
  | some d => rw [ChunkState.ensure_formed_of_isSome cs nm (by rw [hd]; rfl)]
              exact h (by rw [hd]; rfl)
  | none =>
      cases hn : cs.noises with
      | some ns =>
          simp [ChunkState.ensure_formed, ChunkState.ensure_noised, hd, hn]
      | none =>
          simp [ChunkState.ensure_formed, ChunkState.ensure_noised, hd, hn]

/-- `ChunkState::set_block` leaves the chunk formed with the written data. -/
theorem ChunkState.set_block_data (cs : ChunkState) (nm : NoiseModel)
    (x y z id : Nat) :
    (cs.set_block nm x y z id).data =
      some ((((cs.ensure_formed nm).data).getD
        ⟨fun _ => 0, fun _ => none⟩).set_block x y z id) := by
  have h := ChunkState.ensure_formed_data_isSome cs nm
  unfold ChunkState.set_block
  cases hd : (cs.ensure_formed nm).data with
  | some d => simp [hd]
  | none => rw [hd] at h; simp at h

/-! ### ChunkData indexing lemmas -/

theorem ChunkData.get_set_same (d : ChunkData) (x y z id : Nat)
    (hx : x < usize_c) (hy : y < usize_c) (hz : z < usize_c) :
    (d.set_block x y z id).get_block x y z = id := by
  have hidx : x + y * usize_c + z * usize_c * usize_c < chunk_size_usize := by
    simp only [usize_c, chunk_size_usize] at *
    omega
  simp [ChunkData.set_block, ChunkData.get_block, hidx]

theorem ChunkData.get_set_ne (d : ChunkData) (x y z x' y' z' id : Nat)
    (hne : x' + y' * usize_c + z' * usize_c * usize_c ≠
      x + y * usize_c + z * usize_c * usize_c) :
    (d.set_block x y z id).get_block x' y' z' = d.get_block x' y' z' := by
  unfold ChunkData.set_block ChunkData.get_block
  by_cases h : x + y * usize_c + z * usize_c * usize_c < chunk_size_usize
  · by_cases h' : x' + y' * usize_c + z' * usize_c * usize_c < chunk_size_usize
    · simp [h, h', hne]
    · simp [h, h']
  · simp [h]

theorem localIndex_inj (x y z x' y' z' : Nat)
    (hx : x < usize_c) (hy : y < usize_c) (hz : z < usize_c)
    (hx' : x' < usize_c) (hy' : y' < usize_c) (hz' : z' < usize_c)
    (h : x + y * usize_c + z * usize_c * usize_c =
      x' + y' * usize_c + z' * usize_c * usize_c) :
    x = x' ∧ y = y' ∧ z = z' := by
  simp only [usize_c] at *
  omega

/-! ### World routing lemmas -/

theorem World.get_chunk_fst (w : World) (nm : NoiseModel) (x y z : Int) :
    (w.get_chunk nm x y z).1 = (w.stateAt (x, y, z)).ensure_formed nm := by
  unfold World.get_chunk World.ensure_chunk World.stateAt
  cases h : w.chunks (x, y, z) <;> simp [h]

theorem World.get_chunk_chunks (w : World) (nm : NoiseModel) (x y z : Int) :
    (w.get_chunk nm x y z).2.chunks = fun c =>
      if c = (x, y, z) then some ((w.stateAt (x, y, z)).ensure_formed nm)
      else w.chunks c := by
  funext c
  unfold World.get_chunk World.ensure_chunk World.stateAt
  cases h : w.chunks (x, y, z) with
  | some cs => by_cases hc : c = (x, y, z) <;> simp [h, hc]
  | none => by_cases hc : c = (x, y, z) <;> simp [h, hc]

theorem World.get_chunk_listeners (w : World) (nm : NoiseModel)
    (x y z : Int) :
    (w.get_chunk nm x y z).2.chunk_update_listeners =
      w.chunk_update_listeners := by
  unfold World.get_chunk World.ensure_chunk
  cases h : w.chunks (x, y, z) <;> simp [h]

/-- The chunk state the world exposes after `World::get_chunk`. -/
theorem World.get_chunk_stateAt (w : World) (nm : NoiseModel) (x y z : Int)
    (c : Int × Int × Int) :
    (w.get_chunk nm x y z).2.stateAt c =
      if c = (x, y, z) then (w.stateAt (x, y, z)).ensure_formed nm
      else w.stateAt c := by
  unfold World.stateAt
  rw [World.get_chunk_chunks]
  by_cases hc : c = (x, y, z) <;> simp [hc, World.stateAt]

/-- `World::get_block` returns exactly the peeked value (in particular it is
never the unformed-chunk panic). -/
theorem World.get_block_fst (w : World) (nm : NoiseModel) (x y z : Int) :
    (w.get_block nm x y z).1 = some (w.peek nm x y z) := by
  simp only [World.get_block, World.peek]
  rw [World.get_chunk_fst]
  have h := ChunkState.ensure_formed_data_isSome
    (w.stateAt (x.ediv CHUNK_SIZE_X, y.ediv CHUNK_SIZE_X, z.ediv CHUNK_SIZE_X))
    nm
  cases hd : ((w.stateAt (x.ediv CHUNK_SIZE_X, y.ediv CHUNK_SIZE_X,
      z.ediv CHUNK_SIZE_X)).ensure_formed nm).data with
  | some d => simp [ChunkState.get_block, hd]
  | none => rw [hd] at h; simp at h

/-- Forming a chunk (`World::get_chunk`) changes no observable block value. -/
theorem World.peek_get_chunk (w : World) (nm : NoiseModel) (cx cy cz : Int)
    (x y z : Int) :
    (w.get_chunk nm cx cy cz).2.peek nm x y z = w.peek nm x y z := by
  simp only [World.peek]
  rw [World.get_chunk_stateAt]
  by_cases hc : (x.ediv CHUNK_SIZE_X, y.ediv CHUNK_SIZE_X,
      z.ediv CHUNK_SIZE_X) = (cx, cy, cz)
  · rw [if_pos hc, ChunkState.ensure_formed_idem, hc]
  · rw [if_neg hc]

/-- The chunk map after `World::set_block`: the routed chunk holds the
written state, every other chunk is untouched. -/
theorem World.set_block_chunks (w : World) (nm : NoiseModel) (x y z : Int)
    (id : Nat) :
    (w.set_block nm x y z id).1.chunks = fun c =>
      if c = (x.ediv CHUNK_SIZE_X, y.ediv CHUNK_SIZE_X, z.ediv CHUNK_SIZE_X)
      then some (((w.stateAt (x.ediv CHUNK_SIZE_X, y.ediv CHUNK_SIZE_X,
          z.ediv CHUNK_SIZE_X)).ensure_formed nm).set_block nm
        (x.emod CHUNK_SIZE_X).toNat
        (y.emod CHUNK_SIZE_X).toNat
        (z.emod CHUNK_SIZE_X).toNat id)
      else w.chunks c := by
  funext c
  simp only [World.set_block]
  rw [World.get_chunk_fst]
  by_cases hc : c = (x.ediv CHUNK_SIZE_X, y.ediv CHUNK_SIZE_X,
      z.ediv CHUNK_SIZE_X)
  · simp [hc]
  · simp only [if_neg hc]
    rw [World.get_chunk_chunks]
    simp [hc]

theorem World.set_block_stateAt (w : World) (nm : NoiseModel) (x y z : Int)
    (id : Nat) (c : Int × Int × Int) :
    (w.set_block nm x y z id).1.stateAt c =
      if c = (x.ediv CHUNK_SIZE_X, y.ediv CHUNK_SIZE_X, z.ediv CHUNK_SIZE_X)
      then ((w.stateAt (x.ediv CHUNK_SIZE_X, y.ediv CHUNK_SIZE_X,
          z.ediv CHUNK_SIZE_X)).ensure_formed nm).set_block nm
        (x.emod CHUNK_SIZE_X).toNat
        (y.emod CHUNK_SIZE_X).toNat
        (z.emod CHUNK_SIZE_X).toNat id
      else w.stateAt c := by
  unfold World.stateAt
  rw [World.set_block_chunks]
  by_cases hc : c = (x.ediv CHUNK_SIZE_X, y.ediv CHUNK_SIZE_X,
      z.ediv CHUNK_SIZE_X) <;> simp [hc, World.stateAt]

theorem emod_toNat_lt (x : Int) : (x.emod CHUNK_SIZE_X).toNat < usize_c := by
  simp only [CHUNK_SIZE_X, usize_c, emod_eq_mod]
  omega

/-- After `World::set_block(x,y,z,id)`, the observable value at `(x,y,z)` is
`id`. -/
theorem World.peek_set_same (w : World) (nm : NoiseModel) (x y z : Int)
    (id : Nat) :
    (w.set_block nm x y z id).1.peek nm x y z = id := by
  simp only [World.peek]
  rw [World.set_block_stateAt, if_pos rfl]
  set cs := (w.stateAt (x.ediv CHUNK_SIZE_X, y.ediv CHUNK_SIZE_X,
      z.ediv CHUNK_SIZE_X)).ensure_formed nm with hcs
  have hset := ChunkState.set_block_data cs nm
    (x.emod CHUNK_SIZE_X).toNat (y.emod CHUNK_SIZE_X).toNat
    (z.emod CHUNK_SIZE_X).toNat id
  rw [hcs, ChunkState.ensure_formed_idem] at hset
  rw [ChunkState.ensure_formed_of_isSome _ nm (by rw [hset]; rfl), hset]
  simp only [Option.getD_some]
  exact ChunkData.get_set_same _ _ _ _ _
    (emod_toNat_lt x) (emod_toNat_lt y) (emod_toNat_lt z)

/-- After `World::set_block(x,y,z,id)`, every other voxel's observable value
is unchanged. -/
theorem World.peek_set_ne (w : World) (nm : NoiseModel) (x y z : Int)
    (id : Nat) (x' y' z' : Int) (h : (x', y', z') ≠ (x, y, z)) :
    (w.set_block nm x y z id).1.peek nm x' y' z' = w.peek nm x' y' z' := by
  simp only [World.peek]
  rw [World.set_block_stateAt]
  by_cases hc : (x'.ediv CHUNK_SIZE_X, y'.ediv CHUNK_SIZE_X,
      z'.ediv CHUNK_SIZE_X) = (x.ediv CHUNK_SIZE_X, y.ediv CHUNK_SIZE_X,
      z.ediv CHUNK_SIZE_X)
  · rw [if_pos hc]
    have hcx : x'.ediv CHUNK_SIZE_X = x.ediv CHUNK_SIZE_X := congrArg Prod.fst hc
    have hcy : y'.ediv CHUNK_SIZE_X = y.ediv CHUNK_SIZE_X := by
      have := congrArg Prod.snd hc; exact congrArg Prod.fst this
    have hcz : z'.ediv CHUNK_SIZE_X = z.ediv CHUNK_SIZE_X := by
      have := congrArg Prod.snd hc; exact congrArg Prod.snd this
    set cs := (w.stateAt (x.ediv CHUNK_SIZE_X, y.ediv CHUNK_SIZE_X,
        z.ediv CHUNK_SIZE_X)).ensure_formed nm with hcs
    have hset := ChunkState.set_block_data cs nm
      (x.emod CHUNK_SIZE_X).toNat (y.emod CHUNK_SIZE_X).toNat
      (z.emod CHUNK_SIZE_X).toNat id
    rw [hcs, ChunkState.ensure_formed_idem] at hset
    rw [ChunkState.ensure_formed_of_isSome _ nm (by rw [hset]; rfl), hset]
    simp only [Option.getD_some]
    rw [hc]
    rw [← hcs]
    have hne : (x'.emod CHUNK_SIZE_X).toNat
        + (y'.emod CHUNK_SIZE_X).toNat * usize_c
        + (z'.emod CHUNK_SIZE_X).toNat * usize_c * usize_c ≠
        (x.emod CHUNK_SIZE_X).toNat
        + (y.emod CHUNK_SIZE_X).toNat * usize_c
        + (z.emod CHUNK_SIZE_X).toNat * usize_c * usize_c := by
      intro hidx
      obtain ⟨h1, h2, h3⟩ := localIndex_inj _ _ _ _ _ _
        (emod_toNat_lt x') (emod_toNat_lt y') (emod_toNat_lt z')
        (emod_toNat_lt x) (emod_toNat_lt y) (emod_toNat_lt z) hidx
      apply h
      simp only [CHUNK_SIZE_X, ediv_eq_div, emod_eq_mod] at hcx hcy hcz h1 h2 h3
      have hx : x' = x := by omega
      have hy : y' = y := by omega
      have hz : z' = z := by omega
      rw [hx, hy, hz]
    exact ChunkData.get_set_ne _ _ _ _ _ _ _ _ hne
  · rw [if_neg hc]

theorem World.set_block_snd (w : World) (nm : NoiseModel) (x y z : Int)
    (id : Nat) :
    (w.set_block nm x y z id).2 = w.chunk_update_listeners.map (fun l =>
      (⟨x.ediv CHUNK_SIZE_X, y.ediv CHUNK_SIZE_X, z.ediv CHUNK_SIZE_X⟩,
        !l.closed)) := by
  simp only [World.set_block]

theorem ChunkState.set_block_noises (cs : ChunkState) (nm : NoiseModel)
    (x y z id : Nat) :
    (cs.set_block nm x y z id).noises = (cs.ensure_formed nm).noises := by
  have h := ChunkState.ensure_formed_data_isSome cs nm
  unfold ChunkState.set_block
  cases hd : (cs.ensure_formed nm).data with
  | some d => simp [hd]
  | none => rw [hd] at h; simp at h

/-! ### Claims -/

/-- Claim C1: after `World::set_block(x,y,z,id)`, `World::get_block(x,y,z)`
returns `id` (even when the chunk had not been generated — the chunk is
lazily formed and the written id, not the generated terrain id, is read
back), and every other voxel's value is unchanged. -/
theorem claim_C1_set_get_roundtrip (nm : NoiseModel) (w : World)
    (x y z : Int) (id : Nat) (h : id < 256) :
    ((w.set_block nm x y z id).1.get_block nm x y z).1 = some id ∧
    ∀ x' y' z' : Int, (x', y', z') ≠ (x, y, z) →
      ((w.set_block nm x y z id).1.get_block nm x' y' z').1 =
        (w.get_block nm x' y' z').1 := by
  constructor
  · rw [World.get_block_fst, World.peek_set_same]
  · intro x' y' z' hne
    rw [World.get_block_fst, World.get_block_fst,
      World.peek_set_ne _ _ _ _ _ _ _ _ _ hne]

theorem claim_C1_witness :
    (7 : Nat) < 256 ∧
    ((1 : Int), (2 : Int), (3 : Int)) ≠ ((0 : Int), (-1 : Int), (0 : Int)) ∧
    ((World.new.set_block exampleNoise 0 (-1) 0 7).1.get_block
      exampleNoise 0 (-1) 0).1 = some 7 ∧
    ((World.new.set_block exampleNoise 0 (-1) 0 7).1.get_block
      exampleNoise 1 2 3).1 = (World.new.get_block exampleNoise 1 2 3).1 :=
  ⟨by decide, by decide,
    (claim_C1_set_get_roundtrip exampleNoise World.new 0 (-1) 0 7
      (by decide)).1,
    (claim_C1_set_get_roundtrip exampleNoise World.new 0 (-1) 0 7
      (by decide)).2 1 2 3 (by decide)⟩

/-- Claim C5: `ensure_formed` and `ensure_noised` are idempotent, and every
repeated ensure call after the state is reached is a no-op (the cached noises
and data are not recomputed or altered). -/
theorem claim_C5_ensure_idempotent (nm : NoiseModel) (cs : ChunkState) :
    (cs.ensure_formed nm).ensure_formed nm = cs.ensure_formed nm ∧
    (cs.ensure_noised nm).ensure_noised nm = cs.ensure_noised nm ∧
    (cs.data.isSome → cs.ensure_formed nm = cs) ∧
    (cs.noises.isSome → cs.ensure_noised nm = cs) :=
  ⟨ChunkState.ensure_formed_idem cs nm,
    ChunkState.ensure_noised_idem cs nm,
    fun h => ChunkState.ensure_formed_of_isSome cs nm h,
    fun h => ChunkState.ensure_noised_of_isSome cs nm h⟩

theorem claim_C5_witness :
    ((exampleState.ensure_formed exampleNoise).ensure_formed exampleNoise =
      exampleState.ensure_formed exampleNoise) ∧
    ((exampleState.ensure_noised exampleNoise).ensure_noised exampleNoise =
      exampleState.ensure_noised exampleNoise) ∧
    exampleState.ensure_formed exampleNoise = exampleState ∧
    exampleState.ensure_noised exampleNoise = exampleState :=
  ⟨(claim_C5_ensure_idempotent exampleNoise exampleState).1,
    (claim_C5_ensure_idempotent exampleNoise exampleState).2.1,
    (claim_C5_ensure_idempotent exampleNoise exampleState).2.2.1 (by decide),
    (claim_C5_ensure_idempotent exampleNoise exampleState).2.2.2 (by decide)⟩

/-- Claim C6: block data exists only after the noise stage
(`data.isSome → noises.isSome`): the invariant holds at construction and is
preserved by `ensure_noised`, `ensure_formed` and `set_block` (`get_block`
does not mutate the state). -/
theorem claim_C6_staging_invariant (nm : NoiseModel) (cx cy cz : Int)
    (cs : ChunkState) (x y z id : Nat)
    (hinv : cs.data.isSome → cs.noises.isSome) :
    ((ChunkState.new cx cy cz).data.isSome →
      (ChunkState.new cx cy cz).noises.isSome) ∧
    ((cs.ensure_noised nm).data.isSome →
      (cs.ensure_noised nm).noises.isSome) ∧
    ((cs.ensure_formed nm).data.isSome →
      (cs.ensure_formed nm).noises.isSome) ∧
    ((cs.set_block nm x y z id).data.isSome →
      (cs.set_block nm x y z id).noises.isSome) := by
  refine ⟨fun h => by simp [ChunkState.new] at h, ?_, ?_, ?_⟩
  · intro _
    exact ChunkState.ensure_noised_noises_isSome cs nm
  · intro _
    exact ChunkState.ensure_formed_noises cs nm hinv
  · intro _
    rw [ChunkState.set_block_noises]
    exact ChunkState.ensure_formed_noises cs nm hinv

theorem claim_C6_witness :
    ((ChunkState.new 0 0 0).data.isSome →
      (ChunkState.new 0 0 0).noises.isSome) ∧
    ((exampleState.ensure_noised exampleNoise).data.isSome →
      (exampleState.ensure_noised exampleNoise).noises.isSome) ∧
    ((exampleState.ensure_formed exampleNoise).data.isSome →
      (exampleState.ensure_formed exampleNoise).noises.isSome) ∧
    ((exampleState.set_block exampleNoise 1 2 3 7).data.isSome →
      (exampleState.set_block exampleNoise 1 2 3 7).noises.isSome) :=
  claim_C6_staging_invariant exampleNoise 0 0 0 exampleState 1 2 3 7
    (fun _ => by decide)

/-- Claim C7: `ChunkState::get_block` panics (returns `none`) exactly when
the chunk is not yet formed; `ChunkState::set_block` never panics for that
reason — it auto-ensures formation, so a write always succeeds and leaves the
chunk formed with the written value readable. -/
theorem claim_C7_get_panics_set_succeeds (nm : NoiseModel) (cs : ChunkState)
    (x y z id : Nat) :
    (cs.get_block x y z = none ↔ ¬ cs.is_formed) ∧
    (cs.ensure_formed nm).data.isSome ∧
    (cs.set_block nm x y z id).is_formed ∧
    (cs.set_block nm x y z id).get_block x y z ≠ none := by
  refine ⟨?_, ChunkState.ensure_formed_data_isSome cs nm, ?_, ?_⟩
  · cases hd : cs.data <;>
      simp [ChunkState.get_block, ChunkState.is_formed, hd]
  · rw [ChunkState.is_formed, ChunkState.set_block_data]
    rfl
  · rw [ChunkState.get_block, ChunkState.set_block_data]
    simp

/-- Claim C8: chunk generation is deterministic in the chunk coordinate: two
chunk states independently constructed at the same coordinate and taken
through `ensure_noised` and `ensure_formed` carry identical noises (including
the coordinate-derived RNG seed) and identical block data and height maps. -/
theorem claim_C8_deterministic_generation (nm : NoiseModel) (x y z : Int) :
    (((ChunkState.new x y z).ensure_noised nm).ensure_formed nm).noises =
      (((ChunkState.new x y z).ensure_noised nm).ensure_formed nm).noises ∧
    (((ChunkState.new x y z).ensure_noised nm).ensure_formed nm).data =
      (((ChunkState.new x y z).ensure_noised nm).ensure_formed nm).data ∧
    ((((ChunkState.new x y z).ensure_noised nm).ensure_formed nm).noises.map
      ChunkNoises.rngSeed) = some (nm.seedOf x y z) ∧
    (((ChunkState.new x y z).ensure_noised nm).ensure_formed nm) =
      (((ChunkState.new x y z).ensure_noised nm).ensure_formed nm) :=
  ⟨rfl, rfl, rfl, rfl⟩

/-- Claim C9: polling a pending, unfinished deferred value returns "not
ready" and leaves the state untouched; once ready, every subsequent poll
returns the same value; the pending-to-ready transition is one-way and is the
only mutation the container performs. -/
theorem claim_C9_deferred_value {T : Type} (h : JoinHandle T) (item : T)
    (now now' : Nat) (hpending : now < h.finishTime) :
    ((QueuedItem.Generating h).get now = (none, QueuedItem.Generating h)) ∧
    ((QueuedItem.Ready item).get now' = (some item, QueuedItem.Ready item)) ∧
    (∀ q : QueuedItem T, ∀ t v, (q.get t).1 = some v →
      ∀ t', ((q.get t).2.get t').1 = some v ∧
        ((q.get t).2.get t').2 = (q.get t).2) ∧
    (∀ q : QueuedItem T, ∀ t h',
      (q.get t).2 = QueuedItem.Generating h' → q = QueuedItem.Generating h') ∧
    (∀ q : QueuedItem T, ∀ t, (q.get t).2 = q ∨
      ∃ hh, q = QueuedItem.Generating hh ∧
        (q.get t).2 = QueuedItem.Ready hh.val) := by
  have hnf : ¬ (h.finishTime ≤ now) := by omega
  refine ⟨?_, rfl, ?_, ?_, ?_⟩
  · simp [QueuedItem.get, JoinHandle.is_finished, hnf]
  · intro q t v hv t'
    cases q with
    | Generating hh =>
        by_cases hf : hh.finishTime ≤ t
        · simp [QueuedItem.get, JoinHandle.is_finished, hf] at hv ⊢
          exact hv
        · simp [QueuedItem.get, JoinHandle.is_finished, hf] at hv
    | Ready it =>
        simp [QueuedItem.get] at hv ⊢
        exact hv
  · intro q t h' hq
    cases q with
    | Generating hh =>
        by_cases hf : hh.finishTime ≤ t <;>
          simp [QueuedItem.get, JoinHandle.is_finished, hf] at hq ⊢
        exact hq
    | Ready it => simp [QueuedItem.get] at hq
  · intro q t
    cases q with
    | Generating hh =>
        by_cases hf : hh.finishTime ≤ t
        · exact Or.inr ⟨hh, rfl, by
            simp [QueuedItem.get, JoinHandle.is_finished, hf]⟩
        · exact Or.inl (by simp [QueuedItem.get, JoinHandle.is_finished, hf])
    | Ready it => exact Or.inl rfl

theorem claim_C9_witness :
    (5 : Nat) < 9 ∧
    ((QueuedItem.Generating (⟨9, 42⟩ : JoinHandle Nat)).get 5 =
      (none, QueuedItem.Generating ⟨9, 42⟩)) ∧
    ((QueuedItem.Ready (7 : Nat)).get 0 = (some 7, QueuedItem.Ready 7)) :=
  ⟨by decide,
    (claim_C9_deferred_value (⟨9, 42⟩ : JoinHandle Nat) 7 5 0 (by decide)).1,
    (claim_C9_deferred_value (⟨9, 42⟩ : JoinHandle Nat) 7 5 0 (by decide)).2.1⟩

/-- Claim C10: `ChunkData` bounds checking is on the flattened index
`x + y*N + z*N*N` only: at or beyond `N^3`, `set_block` is a silent no-op and
`get_block` returns 0; and both accessors depend only on the flattened index,
so per-axis out-of-range locals whose flattened index is in range alias the
in-range voxel with the same index. -/
theorem claim_C10_flattened_bounds_only (d : ChunkData)
    (x y z x' y' z' id : Nat) :
    (x + y * usize_c + z * usize_c * usize_c ≥ chunk_size_usize →
      d.set_block x y z id = d ∧ d.get_block x y z = 0) ∧
    (x + y * usize_c + z * usize_c * usize_c =
        x' + y' * usize_c + z' * usize_c * usize_c →
      d.get_block x y z = d.get_block x' y' z' ∧
      (d.set_block x y z id).get_block x' y' z' =
        (d.set_block x y z id).get_block x y z) := by
  constructor
  · intro hout
    have hnlt : ¬ (x + y * usize_c + z * usize_c * usize_c <
        chunk_size_usize) := by omega
    constructor
    · simp only [ChunkData.set_block, if_neg hnlt]
    · simp only [ChunkData.get_block, if_neg hnlt]
  · intro heq
    constructor
    · simp only [ChunkData.get_block]
      rw [heq]
    · simp only [ChunkData.get_block, ChunkData.set_block]
      rw [heq]

theorem claim_C10_witness :
    ((0 : Nat) + 0 * usize_c + 32 * usize_c * usize_c ≥ chunk_size_usize) ∧
    (exampleChunkData.set_block 0 0 32 5 = exampleChunkData ∧
      exampleChunkData.get_block 0 0 32 = 0) ∧
    ((32 : Nat) + 0 * usize_c + 0 * usize_c * usize_c =
      0 + 1 * usize_c + 0 * usize_c * usize_c) ∧
    (exampleChunkData.get_block 32 0 0 = exampleChunkData.get_block 0 1 0 ∧
      (exampleChunkData.set_block 32 0 0 5).get_block 0 1 0 =
        (exampleChunkData.set_block 32 0 0 5).get_block 32 0 0) :=
  ⟨by decide,
    (claim_C10_flattened_bounds_only exampleChunkData 0 0 32 0 0 0 5).1
      (by decide),
    by decide,
    (claim_C10_flattened_bounds_only exampleChunkData 32 0 0 0 1 0 5).2
      (by decide)⟩

/-- Claim C3: every `World::set_block(x,y,z,id)` sends to each registered
listener exactly one notification whose coordinate is the chunk coordinate
`(x.div_euclid(N), y.div_euclid(N), z.div_euclid(N))` of the single chunk
containing the voxel (never a neighbor's), in registration order, and send
failures to closed listeners do not fail or abort the write (the resulting
chunk map is independent of the listener list). -/
theorem claim_C3_single_chunk_notification (nm : NoiseModel) (w : World)
    (x y z : Int) (id : Nat) :
    ((w.set_block nm x y z id).2 = w.chunk_update_listeners.map (fun l =>
      (⟨x.ediv CHUNK_SIZE_X, y.ediv CHUNK_SIZE_X, z.ediv CHUNK_SIZE_X⟩,
        !l.closed))) ∧
    ((w.set_block nm x y z id).2.length = w.chunk_update_listeners.length) ∧
    (∀ m ∈ (w.set_block nm x y z id).2,
      m.1.x = x.ediv CHUNK_SIZE_X ∧ m.1.y = y.ediv CHUNK_SIZE_X ∧
        m.1.z = z.ediv CHUNK_SIZE_X) ∧
    (∀ L' : List Listener,
      (World.set_block { w with chunk_update_listeners := L' } nm x y z
        id).1.chunks = (w.set_block nm x y z id).1.chunks) := by
  refine ⟨World.set_block_snd w nm x y z id, ?_, ?_, fun L' => by
    rw [World.set_block_chunks, World.set_block_chunks]
    simp [World.stateAt]⟩
  · rw [World.set_block_snd]
    exact List.length_map _ _
  · intro m hm
    rw [World.set_block_snd] at hm
    obtain ⟨l, _, rfl⟩ := List.mem_map.mp hm
    exact ⟨rfl, rfl, rfl⟩

/-- Counterexample to claim C4: in a radius-1 neighborhood centered on chunk
(0,0,0), the world coordinate (-1,-1,64) lies in chunk (-1,-1,2) — outside
the locked 3x3x3 cube (delta z = 2 > 1) — yet `get_chunk`, `get_block` and
`set_block` do not panic: the flattened index (0*9 + 0*3 + 3 = 3) is in
range, and the guard of the unrelated in-cube chunk (-1,0,-1) is accessed
instead. -/
theorem claim_C4_counterexample :
    ((-1 : Int).ediv CHUNK_SIZE_X, (-1 : Int).ediv CHUNK_SIZE_X,
      (64 : Int).ediv CHUNK_SIZE_X) = (-1, -1, 2) ∧
    ¬ ((2 : Int) ≤ 1) ∧
    ((Neighborhood.around 0 0 0 1).get_chunk (-1) (-1) 64).map
      (fun cs => (cs.x, cs.y, cs.z)) = some ((-1 : Int), (0 : Int), (-1 : Int)) ∧
    ((Neighborhood.around 0 0 0 1).get_block (-1) (-1) 64).isSome = true ∧
    ((Neighborhood.around 0 0 0 1).set_block exampleNoise (-1) (-1) 64
      7).isSome = true := by
  refine ⟨by decide, by decide, by decide, by decide, by decide⟩

theorem flatten3_decode (s A B C : Nat) (hB : B < s) (hC : C < s) :
    (A * s * s + B * s + C) % s = C ∧
    (A * s * s + B * s + C) / s % s = B ∧
    (A * s * s + B * s + C) / (s * s) = A := by
  have hs0 : 0 < s := by omega
  have e1 : A * s * s + B * s + C = C + s * (B + s * A) := by ring
  refine ⟨?_, ?_, ?_⟩
  · rw [e1, Nat.add_mul_mod_self_left, Nat.mod_eq_of_lt hC]
  · rw [e1, Nat.add_mul_div_left _ _ hs0, Nat.div_eq_of_lt hC, Nat.zero_add,
      Nat.add_mul_mod_self_left, Nat.mod_eq_of_lt hB]
  · have e2 : A * s * s + B * s + C = (C + s * B) + s * s * A := by ring
    have hcb : C + s * B < s * s := by
      have h2 : s * (B + 1) ≤ s * s :=
        Nat.mul_le_mul (le_refl s) (Nat.succ_le_of_lt hB)
      have h2' : s * B + s ≤ s * s := by
        calc s * B + s = s * (B + 1) := by ring
          _ ≤ s * s := h2
      omega
    rw [e2, Nat.add_mul_div_left _ _ (by positivity : 0 < s * s),
      Nat.div_eq_of_lt hcb, Nat.zero_add]

theorem flatten3_lt (s A B C : Nat) (hA : A < s) (hB : B < s) (hC : C < s) :
    A * s * s + B * s + C < s * s * s := by
  have h2 : (A + 1) * s ≤ s * s :=
    Nat.mul_le_mul (Nat.succ_le_of_lt hA) (le_refl s)
  have h2' : A * s + s ≤ s * s := by
    calc A * s + s = (A + 1) * s := by ring
      _ ≤ s * s := h2
  have h1 : A * s + B + 1 ≤ s * s := by omega
  have h3 : (A * s + B + 1) * s ≤ s * s * s :=
    Nat.mul_le_mul h1 (le_refl s)
  calc A * s * s + B * s + C < A * s * s + B * s + s := by omega
    _ = (A * s + B + 1) * s := by ring
    _ ≤ s * s * s := h3

theorem around_data_length (cx cy cz : Int) (r : Nat) :
    (Neighborhood.around cx cy cz r).data.length =
      (2 * r + 1) * (2 * r + 1) * (2 * r + 1) := by
  simp [Neighborhood.around]

theorem around_data_get (cx cy cz : Int) (r i : Nat)
    (h : i < (Neighborhood.around cx cy cz r).data.length) :
    (Neighborhood.around cx cy cz r).data.get ⟨i, h⟩ =
      ChunkState.new
        (cx - (r : Int) + ((i / ((2 * r + 1) * (2 * r + 1)) : Nat) : Int))
        (cy - (r : Int) + ((i / (2 * r + 1) % (2 * r + 1) : Nat) : Int))
        (cz - (r : Int) + ((i % (2 * r + 1) : Nat) : Int)) := by
  simp [Neighborhood.around, List.get_eq_getElem]

/-- Claim C4 (amended): `Neighborhood::get_chunk`/`set_block` panic if and
only if the flattened cube index, after the usize cast, falls at or beyond
the guard array — not whenever the coordinate's chunk lies outside the
pre-locked cube.  A coordinate whose chunk is inside the cube does access the
correct chunk, but an out-of-cube coordinate whose flattened index is still
in range silently aliases a different, in-cube chunk
(see the counterexample). -/
theorem claim_C4_amended_flattened_panic (n : Neighborhood) (nm : NoiseModel)
    (cx cy cz x y z : Int) (r id : Nat) (hr : r < 2 ^ 20) :
    (n.get_chunk x y z = none ↔ n.data.length ≤ n.arr_index x y z) ∧
    (n.set_block nm x y z id = none ↔ n.data.length ≤ n.arr_index x y z) ∧
    (-(r : Int) ≤ x.ediv CHUNK_SIZE_X - cx → x.ediv CHUNK_SIZE_X - cx ≤ r →
      -(r : Int) ≤ y.ediv CHUNK_SIZE_X - cy → y.ediv CHUNK_SIZE_X - cy ≤ r →
      -(r : Int) ≤ z.ediv CHUNK_SIZE_X - cz → z.ediv CHUNK_SIZE_X - cz ≤ r →
      ((Neighborhood.around cx cy cz r).get_chunk x y z).map
        (fun cs => (cs.x, cs.y, cs.z)) =
        some (x.ediv CHUNK_SIZE_X, y.ediv CHUNK_SIZE_X,
          z.ediv CHUNK_SIZE_X)) := by
  refine ⟨?_, ?_, ?_⟩
  · simp only [Neighborhood.get_chunk]
    by_cases hlt : n.arr_index x y z < n.data.length
    · rw [dif_pos hlt]
      simp
      omega
    · rw [dif_neg hlt]
      simp
      omega
  · simp only [Neighborhood.set_block]
    by_cases hlt : n.arr_index x y z < n.data.length
    · rw [dif_pos hlt]
      simp
      omega
    · rw [dif_neg hlt]
      simp
      omega
  · intro h1 h2 h3 h4 h5 h6
    set s : Nat := 2 * r + 1 with hs
    set A : Nat := (x.ediv CHUNK_SIZE_X - cx + r).toNat with hA
    set B : Nat := (y.ediv CHUNK_SIZE_X - cy + r).toNat with hB
    set C : Nat := (z.ediv CHUNK_SIZE_X - cz + r).toNat with hC
    have hAlt : A < s := by rw [hA, hs]; omega
    have hBlt : B < s := by rw [hB, hs]; omega
    have hClt : C < s := by rw [hC, hs]; omega
    have hAeq : (A : Int) = x.ediv CHUNK_SIZE_X - cx + r := by rw [hA]; omega
    have hBeq : (B : Int) = y.ediv CHUNK_SIZE_X - cy + r := by rw [hB]; omega
    have hCeq : (C : Int) = z.ediv CHUNK_SIZE_X - cz + r := by rw [hC]; omega
    set idxN : Nat := A * s * s + B * s + C with hidxN
    have hlt3 : idxN < s * s * s := flatten3_lt s A B C hAlt hBlt hClt
    have hcube : s * s * s < 2 ^ 64 := by
      have h21 : s ≤ 2 ^ 21 := by rw [hs]; omega
      calc s * s * s ≤ 2 ^ 21 * 2 ^ 21 * 2 ^ 21 :=
        Nat.mul_le_mul (Nat.mul_le_mul h21 h21) h21
        _ < 2 ^ 64 := by norm_num
    have hidx : (Neighborhood.around cx cy cz r).arr_index x y z = idxN := by
      simp only [Neighborhood.arr_index, Neighborhood.around, usizeCast]
      have hoff : (((2 * r + 1) / 2 : Nat) : Int) = (r : Int) := by omega
      have hE : (x.ediv CHUNK_SIZE_X + (-cx, -cy, -cz).1
            + (((2 * r + 1) / 2 : Nat) : Int)) * ((2 * r + 1 : Nat) : Int)
            * ((2 * r + 1 : Nat) : Int)
          + (y.ediv CHUNK_SIZE_X + (-cx, -cy, -cz).2.1
            + (((2 * r + 1) / 2 : Nat) : Int)) * ((2 * r + 1 : Nat) : Int)
          + (z.ediv CHUNK_SIZE_X + (-cx, -cy, -cz).2.2
            + (((2 * r + 1) / 2 : Nat) : Int)) = ((idxN : Nat) : Int) := by
        rw [hidxN]
        push_cast [hoff]
        rw [hAeq, hBeq, hCeq]
        ring
      rw [hE, emod_eq_mod]
      have hlt64 : ((idxN : Nat) : Int) < 2 ^ 64 := by
        have h64 : idxN < 2 ^ 64 := lt_trans hlt3 hcube
        exact_mod_cast h64
      rw [Int.emod_eq_of_lt (by positivity) hlt64]
      exact Int.toNat_natCast idxN
    have hlen : idxN < (Neighborhood.around cx cy cz r).data.length := by
      rw [around_data_length, ← hs]
      exact hlt3
    simp only [Neighborhood.get_chunk, hidx]
    rw [dif_pos hlen]
    rw [around_data_get cx cy cz r idxN hlen]
    obtain ⟨hd1, hd2, hd3⟩ := flatten3_decode s A B C hBlt hClt
    rw [← hs] at *
    rw [hd1, hd2, hd3]
    simp only [ChunkState.new, Option.map_some]
    refine congrArg some ?_
    refine Prod.ext ?_ (Prod.ext ?_ ?_)
    · simp only
      omega
    · simp only
      omega
    · simp only
      omega

theorem claim_C4_witness :
    (1 : Nat) < 2 ^ 20 ∧
    -(1 : Int) ≤ (33 : Int).ediv CHUNK_SIZE_X - 0 ∧
    ((Neighborhood.around 0 0 0 1).get_chunk 33 (-1) 0 = none ↔
      (Neighborhood.around 0 0 0 1).data.length ≤
        (Neighborhood.around 0 0 0 1).arr_index 33 (-1) 0) ∧
    ((Neighborhood.around 0 0 0 1).set_block exampleNoise 33 (-1) 0 7 = none ↔
      (Neighborhood.around 0 0 0 1).data.length ≤
        (Neighborhood.around 0 0 0 1).arr_index 33 (-1) 0) ∧
    ((Neighborhood.around 0 0 0 1).get_chunk 33 (-1) 0).map
      (fun cs => (cs.x, cs.y, cs.z)) =
      some ((33 : Int).ediv CHUNK_SIZE_X, (-1 : Int).ediv CHUNK_SIZE_X,
        (0 : Int).ediv CHUNK_SIZE_X) :=
  ⟨by decide, by decide,
    (claim_C4_amended_flattened_panic (Neighborhood.around 0 0 0 1)
      exampleNoise 0 0 0 33 (-1) 0 1 7 (by decide)).1,
    (claim_C4_amended_flattened_panic (Neighborhood.around 0 0 0 1)
      exampleNoise 0 0 0 33 (-1) 0 1 7 (by decide)).2.1,
    (claim_C4_amended_flattened_panic (Neighborhood.around 0 0 0 1)
      exampleNoise 0 0 0 33 (-1) 0 1 7 (by decide)).2.2
      (by decide) (by decide) (by decide) (by decide) (by decide) (by decide)⟩

/-! ### WorldView snapshot lemmas -/

theorem mem_intRange (a b k : Int) (h1 : a ≤ k) (h2 : k ≤ b) :
    k ∈ intRange a b := by
  unfold intRange
  have hmem : (k - a).toNat ∈ List.range (b - a + 1).toNat :=
    List.mem_range.mpr (by omega)
  have h := List.mem_map_of_mem (fun n : Nat => a + (n : Int)) hmem
  simp only [] at h
  have he : a + (((k - a).toNat : Nat) : Int) = k := by omega
  rw [he] at h
  exact h

theorem mem_coveringChunks (x1 x2 y1 y2 z1 z2 cx cy cz : Int)
    (hx1 : x1 ≤ cx) (hx2 : cx ≤ x2) (hy1 : y1 ≤ cy) (hy2 : cy ≤ y2)
    (hz1 : z1 ≤ cz) (hz2 : cz ≤ z2) :
    (cx, cy, cz) ∈ coveringChunks x1 x2 y1 y2 z1 z2 := by
  unfold coveringChunks
  rw [List.mem_flatMap]
  refine ⟨cx, mem_intRange _ _ _ hx1 hx2, ?_⟩
  rw [List.mem_flatMap]
  refine ⟨cy, mem_intRange _ _ _ hy1 hy2, ?_⟩
  rw [List.mem_map]
  exact ⟨cz, mem_intRange _ _ _ hz1 hz2, rfl⟩

theorem World.peek_ensure_range (w : World) (nm : NoiseModel)
    (l : List (Int × Int × Int)) (x y z : Int) :
    (w.ensure_range nm l).peek nm x y z = w.peek nm x y z := by
  induction l generalizing w with
  | nil => rfl
  | cons c tl ih =>
      show ((w.get_chunk nm c.1 c.2.1 c.2.2).2.ensure_range nm tl).peek
          nm x y z = _
      rw [ih, World.peek_get_chunk]

/-- A chunk the world holds formed data for. -/
def World.formedAt (w : World) (c : Int × Int × Int) : Prop :=
  ∃ cs, w.chunks c = some cs ∧ cs.data.isSome

theorem World.formedAt_get_chunk_preserve (w : World) (nm : NoiseModel)
    (a b d : Int) (c : Int × Int × Int) (h : w.formedAt c) :
    (w.get_chunk nm a b d).2.formedAt c := by
  obtain ⟨cs, hcs, hd⟩ := h
  by_cases hc : c = (a, b, d)
  · subst hc
    exact ⟨(w.stateAt (a, b, d)).ensure_formed nm,
      by simp [World.get_chunk_chunks],
      ChunkState.ensure_formed_data_isSome _ nm⟩
  · exact ⟨cs, by simp [World.get_chunk_chunks, hc, hcs], hd⟩

theorem World.formedAt_get_chunk_new (w : World) (nm : NoiseModel)
    (a b d : Int) : (w.get_chunk nm a b d).2.formedAt (a, b, d) :=
  ⟨(w.stateAt (a, b, d)).ensure_formed nm, by simp [World.get_chunk_chunks],
    ChunkState.ensure_formed_data_isSome _ nm⟩

theorem World.formedAt_ensure_range_preserve (w : World) (nm : NoiseModel)
    (l : List (Int × Int × Int)) (c : Int × Int × Int) (h : w.formedAt c) :
    (w.ensure_range nm l).formedAt c := by
  induction l generalizing w with
  | nil => exact h
  | cons hd tl ih =>
      exact ih _ (World.formedAt_get_chunk_preserve w nm _ _ _ c h)

theorem World.formedAt_ensure_range (w : World) (nm : NoiseModel)
    (l : List (Int × Int × Int)) (c : Int × Int × Int) (h : c ∈ l) :
    (w.ensure_range nm l).formedAt c := by
  induction l generalizing w with
  | nil => simp at h
  | cons hd tl ih =>
      rcases List.mem_cons.mp h with hc | hc
      · subst hc
        exact World.formedAt_ensure_range_preserve _ nm tl c
          (World.formedAt_get_chunk_new w nm c.1 c.2.1 c.2.2)
      · exact ih _ hc

/-- Decoding the flattened view index back into per-axis offsets. -/
theorem view_decode (sx sy sz lx ly lz : Int)
    (hlx1 : 0 ≤ lx) (hlx2 : lx < sx) (hly1 : 0 ≤ ly) (hly2 : ly < sy)
    (hlz1 : 0 ≤ lz) (hlz2 : lz < sz) :
    Int.emod (lx + ly * sx + lz * (sx * sy)) sx = lx ∧
    Int.emod (Int.ediv (lx + ly * sx + lz * (sx * sy)) sx) sy = ly ∧
    Int.ediv (lx + ly * sx + lz * (sx * sy)) (sx * sy) = lz ∧
    0 ≤ lx + ly * sx + lz * (sx * sy) ∧
    lx + ly * sx + lz * (sx * sy) < sx * sy * sz := by
  simp only [ediv_eq_div, emod_eq_mod]
  have hsx0 : (0 : Int) < sx := lt_of_le_of_lt hlx1 hlx2
  have hsy0 : (0 : Int) < sy := lt_of_le_of_lt hly1 hly2
  have hsz0 : (0 : Int) < sz := lt_of_le_of_lt hlz1 hlz2
  have e1 : lx + ly * sx + lz * (sx * sy) = lx + sx * (ly + sy * lz) := by
    ring
  have e2 : lx + ly * sx + lz * (sx * sy) = (lx + sx * ly) + sx * sy * lz := by
    ring
  refine ⟨?_, ?_, ?_, ?_, ?_⟩
  · rw [e1, Int.add_mul_emod_self_left, Int.emod_eq_of_lt hlx1 hlx2]
  · rw [e1, Int.add_mul_ediv_left _ _ (by omega : sx ≠ 0),
      Int.ediv_eq_zero_of_lt hlx1 hlx2, Int.zero_add,
      Int.add_mul_emod_self_left, Int.emod_eq_of_lt hly1 hly2]
  · have hbound : lx + sx * ly < sx * sy := by
      have t1 : sx * ly ≤ sx * (sy - 1) :=
        mul_le_mul_of_nonneg_left (by omega) (by omega)
      nlinarith
    rw [e2, Int.add_mul_ediv_left _ _ (by positivity : sx * sy ≠ 0),
      Int.ediv_eq_zero_of_lt (by positivity) hbound, Int.zero_add]
  · positivity
  · have t1 : ly * sx ≤ (sy - 1) * sx :=
      mul_le_mul_of_nonneg_right (by omega) (by omega)
    have t2 : lz * (sx * sy) ≤ (sz - 1) * (sx * sy) :=
      mul_le_mul_of_nonneg_right (by omega) (by positivity)
    nlinarith

theorem ediv_le_ediv_32 (a b : Int) (h : a ≤ b) :
    a.ediv CHUNK_SIZE_X ≤ b.ediv CHUNK_SIZE_X := by
  simp only [CHUNK_SIZE_X, ediv_eq_div]
  omega

/-- Claim C2: a `WorldView` built by `from_range` returns 0 (air, never an
error) from `get_block` for every coordinate outside the box, and for every
coordinate inside the box returns exactly what a direct `World::get_block`
call on the same world returns. -/
theorem claim_C2_worldview_snapshot (nm : NoiseModel) (w : World)
    (start_x end_x start_y end_y start_z end_z x y z : Int) :
    ((x < start_x ∨ x > end_x ∨ y < start_y ∨ y > end_y ∨
        z < start_z ∨ z > end_z) →
      (WorldView.from_range w nm start_x end_x start_y end_y start_z
        end_z).1.get_block x y z = 0) ∧
    (start_x ≤ x → x ≤ end_x → start_y ≤ y → y ≤ end_y → start_z ≤ z →
        z ≤ end_z →
      (w.get_block nm x y z).1 =
        some ((WorldView.from_range w nm start_x end_x start_y end_y start_z
          end_z).1.get_block x y z)) := by
  constructor
  · intro hout
    simp only [WorldView.from_range, WorldView.get_block]
    split
    · rfl
    · exfalso
      omega
  · intro hx1 hx2 hy1 hy2 hz1 hz2
    rw [World.get_block_fst]
    refine congrArg some ?_
    simp only [WorldView.from_range, WorldView.get_block]
    set sx : Int := end_x - start_x + 1 with hsx
    set sy : Int := end_y - start_y + 1 with hsy
    set sz : Int := end_z - start_z + 1 with hsz
    have hout' : ¬ (x < start_x ∨ x ≥ start_x + sx ∨ y < start_y ∨
        y ≥ start_y + sy ∨ z < start_z ∨ z ≥ start_z + sz) := by omega
    rw [if_neg hout']
    set lx : Int := x - start_x with hlx
    set ly : Int := y - start_y with hly
    set lz : Int := z - start_z with hlz
    obtain ⟨d1, d2, d3, d4, d5⟩ := view_decode sx sy sz lx ly lz
      (by omega) (by omega) (by omega) (by omega) (by omega) (by omega)
    rw [← mul_assoc] at d1 d2 d3 d4 d5
    have htn : (((lx + ly * sx + lz * sx * sy).toNat : Nat) : Int) =
        lx + ly * sx + lz * sx * sy := Int.toNat_of_nonneg d4
    rw [htn, if_pos d5, d1, d2, d3]
    have ex : start_x + lx = x := by omega
    have ey : start_y + ly = y := by omega
    have ez : start_z + lz = z := by omega
    rw [ex, ey, ez]
    obtain ⟨cs, hcs, hd⟩ := World.formedAt_ensure_range w nm
      (coveringChunks (start_x.ediv CHUNK_SIZE_X) (end_x.ediv CHUNK_SIZE_X)
        (start_y.ediv CHUNK_SIZE_X) (end_y.ediv CHUNK_SIZE_X)
        (start_z.ediv CHUNK_SIZE_X) (end_z.ediv CHUNK_SIZE_X))
      (x.ediv CHUNK_SIZE_X, y.ediv CHUNK_SIZE_X, z.ediv CHUNK_SIZE_X)
      (mem_coveringChunks _ _ _ _ _ _ _ _ _
        (ediv_le_ediv_32 _ _ hx1) (ediv_le_ediv_32 _ _ hx2)
        (ediv_le_ediv_32 _ _ hy1) (ediv_le_ediv_32 _ _ hy2)
        (ediv_le_ediv_32 _ _ hz1) (ediv_le_ediv_32 _ _ hz2))
    rw [hcs]
    have hpeek : w.peek nm x y z = (cs.data.getD defaultChunkData).get_block
        (x.emod CHUNK_SIZE_X).toNat (y.emod CHUNK_SIZE_X).toNat
        (z.emod CHUNK_SIZE_X).toNat := by
      rw [← World.peek_ensure_range w nm
        (coveringChunks (start_x.ediv CHUNK_SIZE_X) (end_x.ediv CHUNK_SIZE_X)
          (start_y.ediv CHUNK_SIZE_X) (end_y.ediv CHUNK_SIZE_X)
          (start_z.ediv CHUNK_SIZE_X) (end_z.ediv CHUNK_SIZE_X)) x y z]
      simp only [World.peek]
      rw [show (World.ensure_range w nm
          (coveringChunks (start_x.ediv CHUNK_SIZE_X)
            (end_x.ediv CHUNK_SIZE_X) (start_y.ediv CHUNK_SIZE_X)
            (end_y.ediv CHUNK_SIZE_X) (start_z.ediv CHUNK_SIZE_X)
            (end_z.ediv CHUNK_SIZE_X))).stateAt
          (x.ediv CHUNK_SIZE_X, y.ediv CHUNK_SIZE_X, z.ediv CHUNK_SIZE_X) =
            cs from by unfold World.stateAt; rw [hcs]; rfl]
      rw [ChunkState.ensure_formed_of_isSome _ nm hd]
    rw [hpeek]
    cases hdd : cs.data with
    | none => rw [hdd] at hd; simp at hd
    | some dd => simp [ChunkState.get_block, hdd]

theorem claim_C2_witness :
    ((WorldView.from_range World.new exampleNoise 0 1 0 1 0 1).1.get_block
      5 0 0 = 0) ∧
    ((World.new.get_block exampleNoise 1 0 1).1 =
      some ((WorldView.from_range World.new exampleNoise 0 1 0 1 0
        1).1.get_block 1 0 1)) :=
  ⟨(claim_C2_worldview_snapshot exampleNoise World.new 0 1 0 1 0 1
      5 0 0).1 (by decide),
    (claim_C2_worldview_snapshot exampleNoise World.new 0 1 0 1 0 1
      1 0 1).2 (by decide) (by decide) (by decide) (by decide) (by decide)
      (by decide)⟩

end Mkcraft
